import Mathlib

/-!
Verification development for the Confess repository's feed/content pipeline.

The embedding covers:
* `insert_confession` from supabase/migrations/008_content_filter.sql
  (admission filter, content heuristics, rate limiter, insert);
* `get_confess_feed` from supabase/migrations/006_unified_feed.sql
  (identical in 011_world_includes_location.sql for the modelled parts);
* the client wrappers `fetchFeed` / `insertConfession` from src/api.ts;
* the session/monetization state machine from src/main.tsx;
* the `resolve_place` edge function.

Strings are modelled as lists of characters.  SQL `timestamptz` values are
modelled as integers (seconds); `interval '15 seconds'` is 15 and
`interval '24 hours'` is 86400.  UUIDs are modelled as naturals ordered the
way the database orders them.  `double precision` coordinates are modelled
as rationals, and the Haversine expression of the SQL (pure floating-point
trigonometry) is abstracted as an explicit distance-function parameter
`dist`: every theorem about `near` mode is stated relative to the distance
function the query filter actually uses.
-/

namespace Confess

abbrev Str := List Char

/-! ### Character classes used by the PostgreSQL regexes -/

/-- A regex word character, `[[:alnum:]_]` (used by the `\m` and `\M`
word-boundary assertions in 008_content_filter.sql). -/
def isWordChar (c : Char) : Bool := c.isAlphanum || c = '_'

/-- A regex whitespace character, `\s` = `[[:space:]]`. -/
def isSpaceChar (c : Char) : Bool :=
  c = ' ' || c = '\t' || c = '\n' || c = '\r' || c = '\x0b' || c = '\x0c'

def toLowerStr (s : Str) : Str := s.map Char.toLower

/-- PostgreSQL `btrim(text)`: strips leading and trailing space characters
(the default trim set of `btrim` is the single space character). -/
def btrim (s : Str) : Str :=
  ((s.dropWhile (· == ' ')).reverse.dropWhile (· == ' ')).reverse

/-- JavaScript `String.prototype.trim`: strips whitespace at both ends. -/
def jsTrim (s : Str) : Str :=
  ((s.dropWhile isSpaceChar).reverse.dropWhile isSpaceChar).reverse

/-! ### The content-filter pattern checks of 008_content_filter.sql -/

/-- `position('@' IN v_text) > 0`: the text contains an `@`. -/
def hasAt (v : Str) : Bool := v.any (fun c => c == '@')

/-- Substring containment (regexes with no anchors reduce to this). -/
def containsSub (p : Str) : Str → Bool
  | [] => p.isEmpty
  | c :: t => p.isPrefixOf (c :: t) || containsSub p t

/-- There is a position with a non-word character (or nothing) before it at
which the given matcher fires: the `\m` word-start assertion. -/
def atWordStart (f : Str → Bool) : Option Char → Str → Bool
  | _, [] => false
  | prev, c :: t =>
    ((match prev with
      | none => true
      | some p => !isWordChar p) && f (c :: t)) || atWordStart f (some c) t

/-- `v_text ~* 'https?://' OR v_text ~* '\mwww\.'`. -/
def hasUrl (v : Str) : Bool :=
  containsSub ('h' :: 't' :: 't' :: 'p' :: ':' :: '/' :: '/' :: []) (toLowerStr v) ||
  containsSub ('h' :: 't' :: 't' :: 'p' :: 's' :: ':' :: '/' :: '/' :: []) (toLowerStr v) ||
  atWordStart (fun l => ('w' :: 'w' :: 'w' :: '.' :: []).isPrefixOf l) none (toLowerStr v)

/-- The TLD alternation of `'\.(com|net|org|no|io|co|app)\M'`. -/
def tldList : List Str :=
  [ ['c', 'o', 'm'], ['n', 'e', 't'], ['o', 'r', 'g'], ['n', 'o'],
    ['i', 'o'], ['c', 'o'], ['a', 'p', 'p'] ]

/-- The `\M` word-end assertion: next character absent or not a word char. -/
def wordEndAfter : Str → Bool
  | [] => true
  | c :: _ => !isWordChar c

/-- A match of `\.(com|net|org|no|io|co|app)\M` starting at this position. -/
def tldAt : Str → Bool
  | '.' :: rest =>
    tldList.any (fun tld => tld.isPrefixOf rest && wordEndAfter (rest.drop tld.length))
  | _ => false

/-- Some position at which a matcher fires (no word-boundary requirement). -/
def anyPos (f : Str → Bool) : Str → Bool
  | [] => false
  | c :: t => f (c :: t) || anyPos f t

/-- `v_text ~* '\.(com|net|org|no|io|co|app)\M'` (case-insensitive). -/
def hasTld (v : Str) : Bool := anyPos tldAt (toLowerStr v)

/-- `length(regexp_replace(v_text, '[^0-9]', '', 'g')) >= 8`. -/
def hasPhone8 (v : Str) : Bool := decide (8 ≤ (v.filter Char.isDigit).length)

/-- After a `+`: `\s*` then `[0-9]`. -/
def skipSpacesThenDigit : Str → Bool
  | [] => false
  | c :: t => if isSpaceChar c then skipSpacesThenDigit t else c.isDigit

/-- `v_text ~ '\+\s*[0-9]'`. -/
def hasPlusDigit : Str → Bool
  | [] => false
  | '+' :: t => skipSpacesThenDigit t || hasPlusDigit t
  | _ :: t => hasPlusDigit t

/-- Trailing `[a-z]+` of the second word, succeeding at a `\M` boundary. -/
def nameTail : Str → Bool
  | [] => true
  | c :: t => if c.isLower then nameTail t else !isWordChar c

/-- `[A-Z][a-z]+\M`: the second capitalized word. -/
def namePart2 : Str → Bool
  | u :: c :: t => u.isUpper && c.isLower && nameTail t
  | _ => false

/-- `\s+` (at least one, consumed by the caller's first step) then the
second word. -/
def spacesThenPart2 : Str → Bool
  | [] => false
  | c :: t => if isSpaceChar c then spacesThenPart2 t else namePart2 (c :: t)

/-- Remaining `[a-z]+` of the first word, then `\s+`, then the second word. -/
def firstLowerRun : Str → Bool
  | [] => false
  | c :: t =>
    if c.isLower then firstLowerRun t
    else if isSpaceChar c then spacesThenPart2 t
    else false

/-- `[A-Z][a-z]+\s+[A-Z][a-z]+\M` matching at this position. -/
def nameAt : Str → Bool
  | u :: c :: t => u.isUpper && c.isLower && firstLowerRun t
  | _ => false

/-- `v_text ~ '\m[A-Z][a-z]+\s+[A-Z][a-z]+\M'` (case-sensitive). -/
def hasNamePat (v : Str) : Bool := atWordStart nameAt none v

/-- The six CONTENT_BLOCKED checks of 008_content_filter.sql, in source
order (all raise the same `CONTENT_BLOCKED` tag, so the short-circuiting
sequence of `IF` statements is a short-circuiting disjunction). -/
def contentBlocked (v : Str) : Bool :=
  hasAt v || hasUrl v || hasTld v || hasPhone8 v || hasPlusDigit v || hasNamePat v

instance {ε α : Type _} [DecidableEq ε] [DecidableEq α] : DecidableEq (Except ε α) := fun a b =>
  match a, b with
  | .error x, .error y =>
    if h : x = y then .isTrue (by rw [h]) else .isFalse (fun he => h (by injection he))
  | .error _, .ok _ => .isFalse (fun he => Except.noConfusion he)
  | .ok _, .error _ => .isFalse (fun he => Except.noConfusion he)
  | .ok x, .ok y =>
    if h : x = y then .isTrue (by rw [h]) else .isFalse (fun he => h (by injection he))

/-! ### The confession store -/

/-- Error tags raised by `insert_confession`. -/
inductive ErrTag
  | EMPTY_TEXT
  | TEXT_TOO_LONG
  | CONTENT_BLOCKED
  | RATE_LIMIT
deriving DecidableEq

/-- A row of the `confessions` table (after migrations 003/006/008). -/
structure Row where
  id : Nat
  text : Str
  created_at : Int
  expires_at : Int
  lat : Option ℚ
  lng : Option ℚ
  is_hidden : Option Bool
  user_id : Option Nat
deriving DecidableEq

/-- `SELECT c.created_at ... WHERE c.user_id = v_user_id ORDER BY
c.created_at DESC LIMIT 1`: the actor's most recent submission time. -/
def lastPost (db : List Row) (u : Nat) : Option Int :=
  ((db.filter (fun r => decide (r.user_id = some u))).map (fun r => r.created_at)).max?

/-- The rate-limiter block of `insert_confession`: skipped when
`auth.uid()` is null, otherwise rejects iff the last post is strictly
inside the 15-second window (`v_last_post > now() - interval '15 seconds'`). -/
def rate_limited (db : List Row) (uid : Option Nat) (now : Int) : Bool :=
  match uid with
  | none => false
  | some u =>
    match lastPost db u with
    | none => false
    | some t => decide (now - 15 < t)

/-- `insert_confession` from 008_content_filter.sql.  `gen_random_uuid()`
is modelled by a fresh id; `now()` is the `now` argument, and the caller's
`auth.uid()` is the `uid` argument. -/
def insert_confession (db : List Row) (uid : Option Nat) (now : Int)
    (p_text : Option Str) (p_lat p_lng : Option ℚ) : Except ErrTag Row :=
  match p_text with
  | none => .error .EMPTY_TEXT
  | some t0 =>
    if btrim t0 = [] then .error .EMPTY_TEXT
    else if 120 < (btrim t0).length then .error .TEXT_TOO_LONG
    else if contentBlocked (btrim t0) then .error .CONTENT_BLOCKED
    else if rate_limited db uid now then .error .RATE_LIMIT
    else .ok
      { id := db.length
        text := btrim t0
        created_at := now
        expires_at := now + 86400
        lat := p_lat
        lng := p_lng
        is_hidden := some false
        user_id := uid }

/-! ### The unified feed query (006_unified_feed.sql / 011) -/

/-- The keyset-pagination disjunct of the `WHERE` clause:
`p_cursor_created_at IS NULL OR c.created_at < p_cursor_created_at OR
(c.created_at = p_cursor_created_at AND c.id < p_cursor_id)`.
A null `p_cursor_id` makes the SQL comparison `c.id < NULL` null, which is
false in the conjunction. -/
def cursorCond (p_ccat : Option Int) (p_cid : Option Nat) (r : Row) : Bool :=
  match p_ccat with
  | none => true
  | some cc =>
    decide (r.created_at < cc) ||
    (decide (r.created_at = cc) &&
      (match p_cid with
       | none => false
       | some ci => decide (r.id < ci)))

/-- The filters applied in both modes:
`c.expires_at > now() AND COALESCE(c.is_hidden, false) = false`. -/
def baseOk (now : Int) (r : Row) : Bool :=
  decide (now < r.expires_at) && !(r.is_hidden.getD false)

/-- The `ORDER BY c.created_at DESC, c.id DESC` ordering as a non-strict
total relation on rows (ties broken by id, also descending). -/
def rLe (a b : Row) : Prop :=
  b.created_at < a.created_at ∨ (b.created_at = a.created_at ∧ b.id ≤ a.id)

instance : DecidableRel rLe := fun a b => by
  unfold rLe; infer_instance

instance : IsTotal Row rLe :=
  ⟨fun a b => by
    rcases lt_trichotomy b.created_at a.created_at with h | h | h
    · exact Or.inl (Or.inl h)
    · rcases le_total b.id a.id with h2 | h2
      · exact Or.inl (Or.inr ⟨h, h2⟩)
      · exact Or.inr (Or.inr ⟨h.symm, h2⟩)
    · exact Or.inr (Or.inl h)⟩

instance : IsTrans Row rLe :=
  ⟨fun a b c hab hbc => by
    rcases hab with h1 | ⟨h1, h1'⟩ <;> rcases hbc with h2 | ⟨h2, h2'⟩
    · exact Or.inl (h2.trans h1)
    · exact Or.inl (lt_of_le_of_lt (le_of_eq h2) h1)
    · exact Or.inl (lt_of_lt_of_le h2 (le_of_eq h1))
    · exact Or.inr ⟨h2.trans h1, h2'.trans h1'⟩⟩

/-- `v_limit := GREATEST(10, LEAST(50, COALESCE(p_limit, 30)))`. -/
def clampLimit (p : Option Int) : Int := max 10 (min 50 (p.getD 30))

/-- `v_radius := GREATEST(100, LEAST(50000, COALESCE(p_radius_m, 10000)))`. -/
def clampRadius (p : Option Int) : Int := max 100 (min 50000 (p.getD 10000))

/-- Abstraction of the Haversine expression of the SQL (floating-point
trigonometry): a distance function taking the query point and the row's
coordinates. -/
abbrev Dist := ℚ → ℚ → ℚ → ℚ → ℚ

/-- The `near`-mode location conjuncts: `c.lat IS NOT NULL AND c.lng IS NOT
NULL AND haversine(...) <= v_radius`. -/
def nearOk (dist : Dist) (la ln : ℚ) (radius : Int) (r : Row) : Bool :=
  match r.lat, r.lng with
  | some cla, some cln => decide (dist la ln cla cln ≤ (radius : ℚ))
  | _, _ => false

/-- The `near`-mode `RETURN QUERY`: filter, order descending, limit. -/
def nearRows (db : List Row) (now : Int) (p_ccat : Option Int) (p_cid : Option Nat)
    (la ln : ℚ) (p_radius_m : Option Int) (p_limit : Option Int) (dist : Dist) : List Row :=
  (List.insertionSort rLe
    (db.filter (fun c =>
      baseOk now c && nearOk dist la ln (clampRadius p_radius_m) c &&
        cursorCond p_ccat p_cid c))).take (clampLimit p_limit).toNat

/-- The `world`-mode `RETURN QUERY`: filter, order descending, limit. -/
def worldRows (db : List Row) (now : Int) (p_ccat : Option Int) (p_cid : Option Nat)
    (p_limit : Option Int) : List Row :=
  (List.insertionSort rLe
    (db.filter (fun c =>
      baseOk now c && cursorCond p_ccat p_cid c))).take (clampLimit p_limit).toNat

/-- `get_confess_feed` from 006_unified_feed.sql (the function body is the
same in 011_world_includes_location.sql).  `RAISE EXCEPTION` is modelled as
`Except.error`. -/
def get_confess_feed (db : List Row) (now : Int) (p_mode : String)
    (p_limit : Option Int) (p_ccat : Option Int) (p_cid : Option Nat)
    (p_lat p_lng : Option ℚ) (p_radius_m : Option Int) (dist : Dist) :
    Except String (List Row) :=
  if p_mode = "near" then
    match p_lat, p_lng with
    | some la, some ln => .ok (nearRows db now p_ccat p_cid la ln p_radius_m p_limit dist)
    | _, _ => .error "lat and lng are required for near mode"
  else
    .ok (worldRows db now p_ccat p_cid p_limit)

/-! ### The client wrappers of src/api.ts -/

/-- What the client needs from a configured backend: the stored rows, the
server clock, the caller's `auth.uid()`, and the feed distance function. -/
structure ClientEnv where
  db : List Row
  now : Int
  uid : Option Nat
  dist : Dist

/-- The result type of `fetchFeed`. -/
structure FeedResult where
  confessions : List Row
  nextCursor : Option (Int × Nat)
  hasMore : Bool
deriving DecidableEq

/-- `fetchFeed` from src/api.ts.  A missing env models `supabase === null`
(missing credentials); RPC failure and the thrown-exception path both
collapse to the same empty result as in the source. -/
def fetchFeed (env : Option ClientEnv) (mode : String) (cursor : Option (Int × Nat))
    (limit : Int) (lat lng : Option ℚ) (radiusM : Int) : FeedResult :=
  match env with
  | none => ⟨[], none, false⟩
  | some e =>
    if mode = "near" ∧ (lat = none ∨ lng = none) then ⟨[], none, false⟩
    else
      match get_confess_feed e.db e.now mode (some (min limit 50 + 1))
          (cursor.map Prod.fst) (cursor.map Prod.snd) lat lng (some radiusM) e.dist with
      | .error _ => ⟨[], none, false⟩
      | .ok items =>
        match (if limit < (items.length : Int) then items.take limit.toNat else items).getLast? with
        | some last =>
          ⟨if limit < (items.length : Int) then items.take limit.toNat else items,
            some (last.created_at, last.id), decide (limit < (items.length : Int))⟩
        | none =>
          ⟨if limit < (items.length : Int) then items.take limit.toNat else items,
            none, decide (limit < (items.length : Int))⟩

/-- The client-side error tags of `insertConfession` (the server tags plus
the generic `ERROR`). -/
inductive ClientErr
  | EMPTY_TEXT
  | TEXT_TOO_LONG
  | CONTENT_BLOCKED
  | RATE_LIMIT
  | ERROR
deriving DecidableEq

/-- The result type of the client `insertConfession`. -/
inductive InsertResult
  | ok (c : Row)
  | err (e : ClientErr)
deriving DecidableEq

/-- The `msg.includes(...)` mapping from server exception messages to
client error tags (each server message starts with its tag). -/
def clientTag : ErrTag → ClientErr
  | .EMPTY_TEXT => .EMPTY_TEXT
  | .TEXT_TOO_LONG => .TEXT_TOO_LONG
  | .CONTENT_BLOCKED => .CONTENT_BLOCKED
  | .RATE_LIMIT => .RATE_LIMIT

/-- `insertConfession` from src/api.ts: fails closed with an `ok: false`
result when the backend is not configured, otherwise maps the RPC outcome. -/
def insertConfession (env : Option ClientEnv) (text : Option Str)
    (la ln : Option ℚ) : InsertResult :=
  match env with
  | none => .err .ERROR
  | some e =>
    match insert_confession e.db e.uid e.now text la ln with
    | .error t => .err (clientTag t)
    | .ok r => .ok r

/-! ### The session / monetization state machine of src/main.tsx

Only the in-memory fields touched by C7 are modelled; the random session
identifier and the persisted `lastBackgroundAt` timestamp do not affect the
counter/flag transitions. -/

/-- `AD_TRIGGER_THRESHOLD = 4`. -/
def AD_TRIGGER_THRESHOLD : Nat := 4

/-- The volatile session fields of src/main.tsx. -/
structure SessionState where
  pageFetchCount : Nat
  adArmed : Bool
  adShown : Bool
deriving DecidableEq

/-- `startNewSession`: reset all counters and flags. -/
def startNewSession : SessionState := ⟨0, false, false⟩

/-- `initSessionIfNeeded`: a cold start always creates a new session. -/
def initSessionIfNeeded : SessionState := startNewSession

/-- `recordPageFetch`: ignored once the ad has been shown; otherwise
increment the counter and arm the ad when the threshold is reached. -/
def recordPageFetch (s : SessionState) : SessionState :=
  if s.adShown then s
  else
    { pageFetchCount := s.pageFetchCount + 1
      adArmed :=
        if !s.adArmed && decide (AD_TRIGGER_THRESHOLD ≤ s.pageFetchCount + 1) then true
        else s.adArmed
      adShown := s.adShown }

/-- `markAdShown`: shown becomes true, armed flips off. -/
def markAdShown (s : SessionState) : SessionState :=
  { s with adShown := true, adArmed := false }

/-- `isAdArmed`: armed and not yet shown. -/
def isAdArmed (s : SessionState) : Bool := s.adArmed && !s.adShown

/-- The session events that mutate the modelled fields. -/
inductive SessionEv
  | pageFetch
  | adShow
deriving DecidableEq

def sessionStep (s : SessionState) : SessionEv → SessionState
  | .pageFetch => recordPageFetch s
  | .adShow => markAdShown s

def runSession (s : SessionState) (evs : List SessionEv) : SessionState :=
  evs.foldl sessionStep s

/-- The number of events along a trace at which the ad is armed and gets
shown (the armed-and-shown transitions of the session lifetime). -/
def armedShowCount (s : SessionState) : List SessionEv → Nat
  | [] => 0
  | .pageFetch :: t => armedShowCount (recordPageFetch s) t
  | .adShow :: t => (if isAdArmed s then 1 else 0) + armedShowCount (markAdShown s) t

/-! ### The resolve_place edge function

The external geocoder is a black-box function from the (trimmed, original
case) query to either a transport/parse failure or a parsed result list;
the `parseFloat`/NaN branch is part of that black box.  The fire-and-forget
cache write is modelled sequentially: a write that would violate the unique
`q_lower` index is ignored, leaving the cache unchanged. -/

/-- The provider tag written to the cache and returned in the `source`
field of a provider-backed response. -/
def nominatimTag : Str := "nominatim".toList

/-- The source tag of a cache-backed response. -/
def cacheTag : Str := "cache".toList

/-- A row of the `place_cache` table. -/
structure CacheEntry where
  q : Str
  q_lower : Str
  lat : ℚ
  lng : ℚ
  name : Str
  provider : Str
deriving DecidableEq

/-- Outcome of the Nominatim call (after status/JSON/parseFloat checks). -/
inductive GeoResp
  | fail
  | results (l : List (ℚ × ℚ × Str))

/-- The JSON responses of the edge function. -/
inductive ResolveResp
  | httpErr (status : Nat)
  | notFound
  | found (lat lng : ℚ) (name : Str) (source : Str)
deriving DecidableEq

/-- `normalizeQuery`: trim and lowercase. -/
def normalizeQuery (q : Str) : Str := toLowerStr (jsTrim q)

/-- The `resolve_place` handler, returning the response together with the
cache after the best-effort write. -/
def resolve_place (cache : List CacheEntry) (geocoder : Str → GeoResp)
    (q : Str) : ResolveResp × List CacheEntry :=
  if (jsTrim q).length < 2 then (.httpErr 400, cache)
  else if 80 < (jsTrim q).length then (.httpErr 400, cache)
  else
    match cache.find? (fun e => e.q_lower == normalizeQuery (jsTrim q)) with
    | some e => (.found e.lat e.lng e.name cacheTag, cache)
    | none =>
      match geocoder (jsTrim q) with
      | .fail => (.httpErr 502, cache)
      | .results [] => (.notFound, cache)
      | .results ((la, ln, dn) :: _) =>
        (.found la ln (jsTrim (dn.takeWhile (fun c => c != ','))) nominatimTag,
          if cache.any (fun e => e.q_lower == normalizeQuery (jsTrim q)) then cache
          else cache ++
            [ { q := jsTrim q
                q_lower := normalizeQuery (jsTrim q)
                lat := la
                lng := ln
                name := jsTrim (dn.takeWhile (fun c => c != ','))
                provider := nominatimTag } ])

/-! ### Concrete fixtures used by witnesses and counterexamples -/

/-- A trivial distance function for instantiating `Dist` in witnesses. -/
def dist0 : Dist := fun _ _ _ _ => 0

/-- Row i of the 51-row world feed fixture (distinct descending creation
times, all unexpired, none hidden). -/
def mkFeedRow (i : Nat) : Row :=
  { id := i, text := [], created_at := (51 : Int) - i, expires_at := 1000
    lat := none, lng := none, is_hidden := some false, user_id := none }

/-- Fifty-one eligible rows. -/
def db51 : List Row := (List.range 51).map mkFeedRow

/-- A configured client over the 51-row fixture. -/
def env51 : ClientEnv := ⟨db51, 0, none, dist0⟩

/-- A store holding one accepted submission by actor 7 at time 100. -/
def db5 : List Row :=
  [{ id := 0, text := [], created_at := 100, expires_at := 10000
     lat := none, lng := none, is_hidden := some false, user_id := some 7 }]

/-- A geocoder that always finds one place. -/
def g0 : Str → GeoResp := fun _ => .results [(10, 20, "Oslo".toList)]

/-- A geotagged row at the origin, created at time 5, unexpired at 0. -/
def rowN : Row :=
  { id := 1, text := [], created_at := 5, expires_at := 100
    lat := some 0, lng := some 0, is_hidden := some false, user_id := none }

/-- A coordinate-free row created at time 4, unexpired at 0. -/
def rowB : Row :=
  { id := 3, text := [], created_at := 4, expires_at := 100
    lat := none, lng := none, is_hidden := some false, user_id := none }

/-- A cache entry for the normalized query of " Oslo ". -/
def entryOslo : CacheEntry :=
  { q := "oslo".toList, q_lower := "oslo".toList, lat := 3, lng := 4
    name := "Oslo".toList, provider := nominatimTag }

/-- A one-entry place cache. -/
def cacheOslo : List CacheEntry := [entryOslo]

/-! ### Helper lemmas -/

/-- A non-space character of a string survives `btrim`. -/
lemma mem_btrim_of_ne_space {c : Char} {l : Str} (hc : c ∈ l) (hne : (c == ' ') = false) :
    c ∈ btrim l := by
  have step : ∀ l' : Str, c ∈ l' → c ∈ l'.dropWhile (· == ' ') := by
    intro l' hm
    rw [← List.takeWhile_append_dropWhile (p := fun x => x == ' ') (l := l')] at hm
    rcases List.mem_append.mp hm with h | h
    · have h2 := List.mem_takeWhile_imp h
      simp only [hne] at h2
      exact absurd h2 (by simp)
    · exact h
  unfold btrim
  exact List.mem_reverse.mpr (step _ (List.mem_reverse.mpr (step l hc)))

lemma recordPageFetch_of_shown {s : SessionState} (h : s.adShown = true) :
    recordPageFetch s = s := by
  simp [recordPageFetch, h]

lemma runSession_cons (s : SessionState) (e : SessionEv) (t : List SessionEv) :
    runSession s (e :: t) = runSession (sessionStep s e) t := rfl

/-- Once shown, the flag persists for the rest of the session. -/
lemma runSession_shown (evs : List SessionEv) : ∀ s : SessionState, s.adShown = true →
    (runSession s evs).adShown = true := by
  induction evs with
  | nil => exact fun s h => h
  | cons e t ih =>
    intro s h
    cases e with
    | pageFetch =>
      rw [runSession_cons]
      simpa [sessionStep, recordPageFetch_of_shown h] using ih s h
    | adShow => exact ih (markAdShown s) rfl

/-- After the ad is shown, no armed-and-shown transition occurs again. -/
lemma armedShowCount_shown (evs : List SessionEv) : ∀ s : SessionState, s.adShown = true →
    armedShowCount s evs = 0 := by
  induction evs with
  | nil => intro s _; rfl
  | cons e t ih =>
    intro s h
    cases e with
    | pageFetch =>
      rw [show armedShowCount s (SessionEv.pageFetch :: t)
          = armedShowCount (recordPageFetch s) t from rfl, recordPageFetch_of_shown h]
      exact ih s h
    | adShow =>
      have ha : isAdArmed s = false := by simp [isAdArmed, h]
      rw [show armedShowCount s (SessionEv.adShow :: t)
          = (if isAdArmed s then 1 else 0) + armedShowCount (markAdShown s) t from rfl,
        ha, ih (markAdShown s) rfl]
      rfl

/-- Any trace performs at most one armed-and-shown transition. -/
lemma armedShowCount_le_one (evs : List SessionEv) : ∀ s : SessionState,
    armedShowCount s evs ≤ 1 := by
  induction evs with
  | nil => intro s; exact Nat.zero_le 1
  | cons e t ih =>
    intro s
    cases e with
    | pageFetch => exact ih (recordPageFetch s)
    | adShow =>
      rw [show armedShowCount s (SessionEv.adShow :: t)
          = (if isAdArmed s then 1 else 0) + armedShowCount (markAdShown s) t from rfl]
      by_cases h : isAdArmed s = true
      · rw [if_pos h, armedShowCount_shown t (markAdShown s) rfl]
      · rw [if_neg h, Nat.zero_add]
        exact ih (markAdShown s)

/-- Running n page fetches from a fresh session counts them all and arms
the ad exactly when the threshold is reached. -/
lemma run_fresh_fetches (n : Nat) :
    runSession startNewSession (List.replicate n .pageFetch)
      = ⟨n, decide (AD_TRIGGER_THRESHOLD ≤ n), false⟩ := by
  induction n with
  | zero => rfl
  | succ n ih =>
    rw [List.replicate_succ']
    have hstep : runSession startNewSession
        (List.replicate n SessionEv.pageFetch ++ [SessionEv.pageFetch])
        = sessionStep (runSession startNewSession (List.replicate n SessionEv.pageFetch))
            SessionEv.pageFetch := by
      simp [runSession, List.foldl_append]
    rw [hstep, ih]
    simp only [sessionStep, recordPageFetch, AD_TRIGGER_THRESHOLD]
    by_cases h : 4 ≤ n
    · have h' : 4 ≤ n + 1 := Nat.le_succ_of_le h
      simp [h, h']
    · have h2 : (4 ≤ n + 1) ↔ (n + 1 = 4) := by omega
      by_cases h3 : n + 1 = 4
      · simp [h, h2, h3]
      · have h4 : ¬(4 ≤ n + 1) := by omega
        simp [h, h4]

/-- Both feed branches return a take of a descending insertion sort of a
filter whose predicate implies the base and cursor conditions, and in
`near` mode also the location condition. -/
lemma feed_ok_shape {db : List Row} {now : Int} {mode : String} {plim : Option Int}
    {pcc : Option Int} {pcid : Option Nat} {plat plng : Option ℚ} {prad : Option Int}
    {dist : Dist} {rows : List Row}
    (hok : get_confess_feed db now mode plim pcc pcid plat plng prad dist = .ok rows) :
    ∃ f : Row → Bool,
      rows = (List.insertionSort rLe (db.filter f)).take (clampLimit plim).toNat
      ∧ (∀ r, f r = true → baseOk now r = true ∧ cursorCond pcc pcid r = true)
      ∧ (mode = "near" → ∃ la ln, plat = some la ∧ plng = some ln ∧
          ∀ r, f r = true → nearOk dist la ln (clampRadius prad) r = true) := by
  unfold get_confess_feed at hok
  split at hok
  case isTrue hmode =>
    cases hla : plat with
    | none =>
      rw [hla] at hok
      cases plng <;> exact absurd hok (by simp)
    | some la =>
      cases hln : plng with
      | none =>
        rw [hla, hln] at hok
        exact absurd hok (by simp)
      | some ln =>
        rw [hla, hln] at hok
        simp only [Except.ok.injEq] at hok
        refine ⟨fun c => baseOk now c && nearOk dist la ln (clampRadius prad) c
          && cursorCond pcc pcid c, ?_, ?_, ?_⟩
        · rw [← hok]; rfl
        · intro r hr
          simp only [Bool.and_eq_true] at hr
          exact ⟨hr.1.1, hr.2⟩
        · intro _
          refine ⟨la, ln, rfl, rfl, fun r hr => ?_⟩
          simp only [Bool.and_eq_true] at hr
          exact hr.1.2
  case isFalse hmode =>
    simp only [Except.ok.injEq] at hok
    refine ⟨fun c => baseOk now c && cursorCond pcc pcid c, ?_, ?_, ?_⟩
    · rw [← hok]; rfl
    · intro r hr
      simp only [Bool.and_eq_true] at hr
      exact hr
    · intro hm; exact absurd hm hmode

/-! ### Claim theorems -/

/-- C1: the extra-row has-more mechanism breaks at the maximum page size.
The fixture store holds 51 eligible rows.  At page size 50 the wrapper
sends `p_limit = 51`, but the server clamps its limit to `LEAST(50, ...)`,
so the extra row never comes back: the wrapper returns the full page of 50
rows with `hasMore = false` even though a 51st eligible row exists.  At
page size 49 the same store yields `hasMore = true`, isolating the failure
to the clamp at the maximum page size. -/
theorem fetchFeed_extra_row_clamped_at_50 :
    (db51.filter (fun r => baseOk 0 r)).length = 51
    ∧ (fetchFeed (some env51) "world" none 50 none none 1000).hasMore = false
    ∧ (fetchFeed (some env51) "world" none 50 none none 1000).confessions.length = 50
    ∧ (fetchFeed (some env51) "world" none 49 none none 1000).hasMore = true := by
  decide

/-- C9: with no configured backend client, `fetchFeed` returns the empty
feed result and `insertConfession` returns an `ok: false` error result;
both are total functions of their inputs (nothing is thrown). -/
theorem client_fails_closed_when_unconfigured (mode : String) (cursor : Option (Int × Nat))
    (limit : Int) (lat lng : Option ℚ) (radiusM : Int) (text : Option Str)
    (la ln : Option ℚ) :
    fetchFeed none mode cursor limit lat lng radiusM = ⟨[], none, false⟩
    ∧ insertConfession none text la ln = .err .ERROR :=
  ⟨rfl, rfl⟩

/-- C10: when `auth.uid()` is null the rate-limit block of
`insert_confession` is skipped entirely, so the operation can never raise
RATE_LIMIT, whatever the store contains. -/
theorem null_actor_skips_rate_limit (db : List Row) (now : Int) (p_text : Option Str)
    (la ln : Option ℚ) :
    rate_limited db none now = false
    ∧ insert_confession db none now p_text la ln ≠ .error .RATE_LIMIT := by
  refine ⟨rfl, ?_⟩
  cases p_text with
  | none => simp [insert_confession]
  | some t0 =>
    simp only [insert_confession, rate_limited]
    split_ifs <;> simp_all

/-- Witness for C10: a store holding a submission one second old does not
rate-limit a caller without an actor id. -/
theorem null_actor_skips_rate_limit_witness :
    insert_confession db5 none 101 (some "hello".toList) none none ≠ .error .RATE_LIMIT :=
  (null_actor_skips_rate_limit db5 101 (some "hello".toList) none none).2

/-- C4: the admission checks run in order with short-circuiting: an empty
trimmed text is EMPTY_TEXT; a trimmed length above 120 is TEXT_TOO_LONG
regardless of any pattern match; a trimmed length of at most 120 is never
TEXT_TOO_LONG; and for a non-empty, within-limit text the outcome is
CONTENT_BLOCKED exactly when one of the six pattern checks fires. -/
theorem insert_confession_check_order (db : List Row) (uid : Option Nat) (now : Int)
    (t0 : Str) (la ln : Option ℚ) :
    (btrim t0 = [] → insert_confession db uid now (some t0) la ln = .error .EMPTY_TEXT)
    ∧ (120 < (btrim t0).length →
        insert_confession db uid now (some t0) la ln = .error .TEXT_TOO_LONG)
    ∧ ((btrim t0).length ≤ 120 →
        insert_confession db uid now (some t0) la ln ≠ .error .TEXT_TOO_LONG)
    ∧ (btrim t0 ≠ [] → (btrim t0).length ≤ 120 →
        (insert_confession db uid now (some t0) la ln = .error .CONTENT_BLOCKED
          ↔ contentBlocked (btrim t0) = true)) := by
  refine ⟨?_, ?_, ?_, ?_⟩
  · intro h
    simp [insert_confession, h]
  · intro h
    have hne : ¬(btrim t0 = []) := by
      intro he; rw [he] at h; simp at h
    simp [insert_confession, hne, h]
  · intro h
    simp only [insert_confession]
    split_ifs with h1 h2 <;> first
      | omega
      | simp_all
  · intro hne hle
    simp only [insert_confession]
    rw [if_neg hne, if_neg (not_lt.mpr hle)]
    by_cases hcb : contentBlocked (btrim t0) = true
    · simp [hcb]
    · rw [if_neg hcb]
      constructor
      · intro h
        split_ifs at h
        simp_all
      · intro h
        exact absurd h hcb

/-- Witness for C4: a 121-character text is rejected as TEXT_TOO_LONG. -/
theorem insert_confession_check_order_witness :
    insert_confession [] none 0 (some (List.replicate 121 'a')) none none
      = .error .TEXT_TOO_LONG :=
  (insert_confession_check_order [] none 0 (List.replicate 121 'a') none none).2.1 (by decide)

/-- C5: for an actor with a prior submission at time t (and text passing
the validation steps that run first), the submission is rejected with
RATE_LIMIT exactly when the elapsed time is strictly below 15 seconds; an
actor with no prior submission is never rate-limited. -/
theorem rate_limit_iff_within_15s (db : List Row) (u : Nat) (now t : Int) (t0 : Str)
    (la ln : Option ℚ) (h1 : btrim t0 ≠ []) (h2 : (btrim t0).length ≤ 120)
    (h3 : contentBlocked (btrim t0) = false) (hlast : lastPost db u = some t) :
    (insert_confession db (some u) now (some t0) la ln = .error .RATE_LIMIT
      ↔ now - t < 15)
    ∧ (∀ db2 : List Row, lastPost db2 u = none →
        insert_confession db2 (some u) now (some t0) la ln ≠ .error .RATE_LIMIT) := by
  have h3' : ¬(contentBlocked (btrim t0) = true) := by simp [h3]
  constructor
  · have hrl : rate_limited db (some u) now = decide (now - 15 < t) := by
      simp only [rate_limited, hlast]
    simp only [insert_confession]
    rw [if_neg h1, if_neg (not_lt.mpr h2), if_neg h3', hrl]
    by_cases hd : now - 15 < t
    · rw [if_pos (by simpa using hd)]
      exact ⟨fun _ => by omega, fun _ => rfl⟩
    · rw [if_neg (by simpa using hd)]
      exact ⟨fun h => Except.noConfusion h, fun hlt => absurd (by omega : now - 15 < t) hd⟩
  · intro db2 hnone
    have hrl2 : rate_limited db2 (some u) now = false := by
      simp only [rate_limited, hnone]
    simp only [insert_confession]
    rw [if_neg h1, if_neg (not_lt.mpr h2), if_neg h3', hrl2, if_neg (by simp)]
    exact fun h => Except.noConfusion h

/-- Witness for C5: actor 7 posted at time 100 and posts again at time 110
(10 seconds elapsed), which is rejected with RATE_LIMIT. -/
theorem rate_limit_iff_within_15s_witness :
    insert_confession db5 (some 7) 110 (some "hello".toList) none none
      = .error .RATE_LIMIT :=
  (rate_limit_iff_within_15s db5 7 110 100 "hello".toList none none (by decide) (by decide)
    (by decide) (by decide)).1.mpr (by decide)

set_option maxRecDepth 4000 in
/-- C6 counterexample: a 121-character text made of `@` characters is
rejected with TEXT_TOO_LONG, not CONTENT_BLOCKED, because the length check
runs first — so the unrestricted claim is false. -/
theorem at_text_over_limit_not_content_blocked :
    ('@' ∈ List.replicate 121 '@')
    ∧ insert_confession [] none 0 (some (List.replicate 121 '@')) none none
        = .error .TEXT_TOO_LONG
    ∧ ErrTag.TEXT_TOO_LONG ≠ ErrTag.CONTENT_BLOCKED := by
  decide

/-- C6 amended: a text containing `@` whose trimmed length is within the
120-character limit is rejected with CONTENT_BLOCKED. -/
theorem at_symbol_content_blocked (db : List Row) (uid : Option Nat) (now : Int)
    (t0 : Str) (la ln : Option ℚ) (hat : '@' ∈ t0)
    (hlen : (btrim t0).length ≤ 120) :
    insert_confession db uid now (some t0) la ln = .error .CONTENT_BLOCKED := by
  have hmem : '@' ∈ btrim t0 := mem_btrim_of_ne_space hat (by decide)
  have hne : btrim t0 ≠ [] := List.ne_nil_of_mem hmem
  have hcb : contentBlocked (btrim t0) = true := by
    have hat2 : hasAt (btrim t0) = true := by
      simp only [hasAt, List.any_eq_true]
      exact ⟨'@', hmem, by simp⟩
    simp [contentBlocked, hat2]
  simp only [insert_confession]
  rw [if_neg hne, if_neg (not_lt.mpr hlen), if_pos hcb]

/-- Witness for the amended C6. -/
theorem at_symbol_content_blocked_witness :
    insert_confession [] none 0 (some "a@b".toList) none none = .error .CONTENT_BLOCKED :=
  at_symbol_content_blocked [] none 0 "a@b".toList none none (by decide) (by decide)

/-- C7: the session state machine — cold start resets counter and flags;
a page fetch is ignored once the ad is shown and otherwise increments the
counter; from a fresh session the ad is armed exactly once the counter
reaches the threshold of 4; marking the ad shown sets shown and disarms;
and any event trace performs at most one armed-and-shown transition. -/
theorem session_single_ad_per_session :
    (initSessionIfNeeded = startNewSession ∧ startNewSession.pageFetchCount = 0
      ∧ startNewSession.adArmed = false ∧ startNewSession.adShown = false)
    ∧ (∀ s : SessionState, s.adShown = true → recordPageFetch s = s)
    ∧ (∀ s : SessionState, s.adShown = false →
        (recordPageFetch s).pageFetchCount = s.pageFetchCount + 1)
    ∧ (∀ n : Nat, (runSession startNewSession (List.replicate n .pageFetch)).adArmed
        = decide (AD_TRIGGER_THRESHOLD ≤ n))
    ∧ (∀ s : SessionState, (markAdShown s).adShown = true ∧ (markAdShown s).adArmed = false)
    ∧ (∀ (s : SessionState) (evs : List SessionEv), armedShowCount s evs ≤ 1) := by
  refine ⟨⟨rfl, rfl, rfl, rfl⟩, ?_, ?_, ?_, ?_, ?_⟩
  · exact fun s h => recordPageFetch_of_shown h
  · intro s h
    simp [recordPageFetch, h]
  · intro n
    rw [run_fresh_fetches n]
  · exact fun s => ⟨rfl, rfl⟩
  · exact fun s evs => armedShowCount_le_one evs s

/-- C2: with a non-null cursor every returned row is strictly below the
cursor in the (created_at DESC, id DESC) order; returned rows are sorted
in that order; and with a null cursor the pagination predicate accepts
every row (first page). -/
theorem feed_cursor_strict_and_sorted (db : List Row) (now : Int) (mode : String)
    (plim : Option Int) (plat plng : Option ℚ) (prad : Option Int) (dist : Dist)
    (cc : Int) (ci : Nat) :
    (∀ (rows : List Row) (r : Row),
        get_confess_feed db now mode plim (some cc) (some ci) plat plng prad dist = .ok rows →
        r ∈ rows → r.created_at < cc ∨ (r.created_at = cc ∧ r.id < ci))
    ∧ (∀ (pcc : Option Int) (pcid : Option Nat) (rows : List Row),
        get_confess_feed db now mode plim pcc pcid plat plng prad dist = .ok rows →
        rows.Sorted rLe)
    ∧ (∀ (pcid : Option Nat) (r : Row), cursorCond none pcid r = true) := by
  refine ⟨?_, ?_, ?_⟩
  · intro rows r hok hr
    obtain ⟨f, hshape, hf, -⟩ := feed_ok_shape hok
    rw [hshape] at hr
    have hr2 : r ∈ List.insertionSort rLe (db.filter f) := List.mem_of_mem_take hr
    rw [List.mem_insertionSort] at hr2
    have hcur := (hf r (List.mem_filter.mp hr2).2).2
    simp only [cursorCond, Bool.or_eq_true, Bool.and_eq_true, decide_eq_true_eq] at hcur
    exact hcur
  · intro pcc pcid rows hok
    obtain ⟨f, hshape, -, -⟩ := feed_ok_shape hok
    rw [hshape]
    exact List.Pairwise.sublist (List.take_sublist _ _) (List.sorted_insertionSort rLe _)
  · exact fun pcid r => rfl

/-- Witness for C2: a row created at time 4 returned under cursor (5, 7)
is strictly below the cursor. -/
theorem feed_cursor_strict_and_sorted_witness :
    rowB.created_at < 5 ∨ (rowB.created_at = 5 ∧ rowB.id < 7) :=
  (feed_cursor_strict_and_sorted [rowB] 0 "world" none none none none dist0 5 7).1
    [rowB] rowB (by decide) (by decide)

/-- C3: every returned row is unexpired and not hidden, in both modes; and
in near mode every returned row carries coordinates whose distance from
the query point is within the clamped radius (so a row with null
coordinates is never returned in near mode, whatever the radius). -/
theorem feed_filters_and_near_radius (db : List Row) (now : Int) (mode : String)
    (plim : Option Int) (pcc : Option Int) (pcid : Option Nat) (plat plng : Option ℚ)
    (prad : Option Int) (dist : Dist) (rows : List Row) (r : Row)
    (hok : get_confess_feed db now mode plim pcc pcid plat plng prad dist = .ok rows)
    (hr : r ∈ rows) :
    (now < r.expires_at ∧ r.is_hidden.getD false = false)
    ∧ (mode = "near" → ∃ la ln cla cln, plat = some la ∧ plng = some ln
        ∧ r.lat = some cla ∧ r.lng = some cln
        ∧ dist la ln cla cln ≤ ((clampRadius prad : Int) : ℚ)) := by
  obtain ⟨f, hshape, hf, hnear⟩ := feed_ok_shape hok
  rw [hshape] at hr
  have hr2 : r ∈ List.insertionSort rLe (db.filter f) := List.mem_of_mem_take hr
  rw [List.mem_insertionSort] at hr2
  have hfr := (List.mem_filter.mp hr2).2
  have hbase := (hf r hfr).1
  simp only [baseOk, Bool.and_eq_true, decide_eq_true_eq, Bool.not_eq_true'] at hbase
  refine ⟨⟨hbase.1, hbase.2⟩, ?_⟩
  intro hmode
  obtain ⟨la, ln, hla, hln, hno⟩ := hnear hmode
  have hn := hno r hfr
  unfold nearOk at hn
  cases hcla : r.lat with
  | none =>
    rw [hcla] at hn
    cases r.lng <;> simp at hn
  | some cla =>
    cases hcln : r.lng with
    | none =>
      rw [hcla, hcln] at hn
      simp at hn
    | some cln =>
      rw [hcla, hcln] at hn
      simp only [decide_eq_true_eq] at hn
      exact ⟨la, ln, cla, cln, hla, hln, rfl, rfl, hn⟩

/-- Witness for C3: a near-mode query at the origin returns the fixture
row, which is unexpired, not hidden, and within the default radius. -/
theorem feed_filters_and_near_radius_witness :
    ((0 : Int) < rowN.expires_at ∧ rowN.is_hidden.getD false = false)
    ∧ ("near" = "near" → ∃ la ln cla cln, (some (0 : ℚ)) = some la
        ∧ (some (0 : ℚ)) = some ln ∧ rowN.lat = some cla ∧ rowN.lng = some cln
        ∧ dist0 la ln cla cln ≤ ((clampRadius none : Int) : ℚ)) :=
  feed_filters_and_near_radius [rowN] 0 "near" none none none (some 0) (some 0) none dist0
    [rowN] rowN (by decide) (by decide)

/-- C8 counterexample: on a cache miss with provider success the handler
returns the source tag nominatim, not the tag provider the claim states. -/
theorem resolve_place_source_tag_counterexample :
    (resolve_place [] g0 "Oslo".toList).1 = .found 10 20 "Oslo".toList nominatimTag
    ∧ nominatimTag ≠ "provider".toList := by
  decide

/-- C8 amended: for an in-bounds query — on a cache hit for the normalized
query the handler returns the cached coordinates with source tag cache; on
a miss with provider success it returns the provider coordinates with
source tag nominatim and appends a cache entry keyed by the normalized
query (the write is best-effort: a write that would duplicate the unique
key is ignored, not retried); on zero provider results it returns the
structured NOT_FOUND response rather than an error. -/
theorem resolve_place_contract (cache : List CacheEntry) (g : Str → GeoResp) (q : Str)
    (e : CacheEntry) (la ln : ℚ) (dn : Str) (rest : List (ℚ × ℚ × Str))
    (h2 : 2 ≤ (jsTrim q).length) (h80 : (jsTrim q).length ≤ 80) :
    (cache.find? (fun x => x.q_lower == normalizeQuery (jsTrim q)) = some e →
      resolve_place cache g q = (.found e.lat e.lng e.name cacheTag, cache))
    ∧ (cache.find? (fun x => x.q_lower == normalizeQuery (jsTrim q)) = none →
        g (jsTrim q) = .results ((la, ln, dn) :: rest) →
        resolve_place cache g q =
          (.found la ln (jsTrim (dn.takeWhile (fun c => c != ','))) nominatimTag,
            cache ++
              [{ q := jsTrim q, q_lower := normalizeQuery (jsTrim q), lat := la, lng := ln,
                 name := jsTrim (dn.takeWhile (fun c => c != ',')), provider := nominatimTag }]))
    ∧ (cache.find? (fun x => x.q_lower == normalizeQuery (jsTrim q)) = none →
        g (jsTrim q) = .results [] →
        resolve_place cache g q = (.notFound, cache)) := by
  have hlt : ¬((jsTrim q).length < 2) := by omega
  have hgt : ¬(80 < (jsTrim q).length) := by omega
  refine ⟨?_, ?_, ?_⟩
  · intro hhit
    unfold resolve_place
    rw [if_neg hlt, if_neg hgt, hhit]
  · intro hmiss hresults
    have hany : cache.any (fun x => x.q_lower == normalizeQuery (jsTrim q)) = false := by
      rw [List.any_eq_false]
      intro x hx
      have := List.find?_eq_none.mp hmiss x hx
      simpa using this
    unfold resolve_place
    rw [if_neg hlt, if_neg hgt, hmiss, hresults, hany]
    simp
  · intro hmiss hres0
    unfold resolve_place
    rw [if_neg hlt, if_neg hgt, hmiss, hres0]

/-- Witness for the amended C8: a cache hit on the normalized form of the
query " Oslo " returns the cached coordinates with source tag cache. -/
theorem resolve_place_contract_witness :
    resolve_place cacheOslo g0 (" Oslo ".toList)
      = (.found 3 4 "Oslo".toList cacheTag, cacheOslo) :=
  (resolve_place_contract cacheOslo g0 (" Oslo ".toList) entryOslo 0 0 [] []
    (by decide) (by decide)).1 (by decide)

end Confess
